import Mathlib

/-!
Verification development for the news-summarizer lambda
(`src/lambda_function.py`).  The Python functions with decision logic are
shallowly embedded as executable Lean definitions: strings are `String`,
machine timestamps are `Int` seconds, Python `float` scores and ratios are
modelled as `ℚ`, fallible calls return `Option`/`Except`, and the external
collaborators (DynamoDB, the article HTTP fetch, the Hugging Face call) are
passed in as explicit oracle values describing the outcome of the one call
the code makes to each of them.
-/

set_option maxRecDepth 20000

/-! ### Python string primitives -/

/-- Characters matched by Python's `\s` (the ASCII range, which is all the
embedding's inputs use): the same set `str.split()` and `str.strip()` use. -/
def pyIsSpace (c : Char) : Bool :=
  c == ' ' || c == '\t' || c == '\n' || c == '\r' || c == '\x0b' || c == '\x0c'

/-- Accumulator pass for Python `str.split()` (split on whitespace runs,
dropping empty pieces).  `cur` holds the current word reversed. -/
def wordsAux : List Char → List Char → List (List Char)
  | [], cur => if cur.isEmpty then [] else [cur.reverse]
  | c :: rest, cur =>
    if pyIsSpace c then
      if cur.isEmpty then wordsAux rest [] else cur.reverse :: wordsAux rest []
    else
      wordsAux rest (c :: cur)

/-- Python `s.split()` (no separator argument). -/
def pyWords (s : String) : List String := (wordsAux s.toList []).map String.mk

/-- Python `len(s.split())`. -/
def pyWordCount (s : String) : Nat := (pyWords s).length

/-- Strip `pyIsSpace` characters from both ends of a character list. -/
def stripChars (l : List Char) : List Char :=
  ((l.dropWhile pyIsSpace).reverse.dropWhile pyIsSpace).reverse

/-- Python `s.strip()`. -/
def pyStrip (s : String) : String := String.mk (stripChars s.toList)

/-- Python `sep.join(pieces)`. -/
def pyJoin (sep : String) : List String → String
  | [] => ""
  | [s] => s
  | s :: t :: rest => s ++ sep ++ pyJoin sep (t :: rest)

/-- `re.sub(r'\s+', ' ', s).strip()` from `extract_article_content_and_title`:
collapsing whitespace runs to single spaces and trimming is the same as
joining the whitespace-separated words with single spaces. -/
def collapseWs (s : String) : String := pyJoin " " (pyWords s)

/-- Python `s[:n]` (slicing by code points). -/
def strTake (s : String) (n : Nat) : String := String.mk (s.toList.take n)

/-! ### Sentence splitting (`re.split(r'(?<=[.!?])\s+', text)`) -/

/-- The sentence-terminal characters of the lookbehind `[.!?]`. -/
def isSentTerm (c : Char) : Bool := c == '.' || c == '!' || c == '?'

/-- Fuelled scan for `re.split(r'(?<=[.!?])\s+', text)`: a (maximal,
greedy) whitespace run whose preceding character is `.`, `!` or `?` ends the
current piece.  `cur` holds the current piece reversed, so its head is the
character preceding the scan position.  Each step consumes at least one
character, so fuel `= length` never runs out. -/
def sentSplitAux : Nat → List Char → List Char → List String
  | _, [], cur => [String.mk cur.reverse]
  | 0, cs, cur => [String.mk (cur.reverse ++ cs)]
  | fuel + 1, c :: rest, cur =>
    if pyIsSpace c && (match cur with | [] => false | p :: _ => isSentTerm p) then
      String.mk cur.reverse :: sentSplitAux fuel (rest.dropWhile pyIsSpace) []
    else
      sentSplitAux fuel rest (c :: cur)

/-- `re.split(r'(?<=[.!?])\s+', text)` (line 307 of the source). -/
def pySentences (text : String) : List String :=
  sentSplitAux text.toList.length text.toList []

/-! ### The fallback summarizer `simple_extractive_summary` -/

/-- Line 307–309: split into sentences, keep those with more than 5 words,
strip each survivor (`[s.strip() for s in sentences if len(s.split()) > 5]`). -/
def filteredSentences (text : String) : List String :=
  ((pySentences text).filter (fun s => 5 < pyWordCount s)).map pyStrip

/-- The score of the sentence of index `i` among `n`:
`len(sentence.split()) * (1 - (i / len(sentences)))`, with Python's float
arithmetic modelled over `ℚ`. -/
def sentenceScore (n : Nat) (i : Nat) (s : String) : ℚ :=
  (pyWordCount s : ℚ) * (1 - (i : ℚ) / (n : ℚ))

/-- The sentence list joined by `simple_extractive_summary` (lines 311–324):
all sentences when at most `num_sentences` survive the filter, otherwise the
top scorers of the stable descending sort by score
(`sorted(..., key=lambda x: x[0], reverse=True)[:num_sentences]`) re-sorted
by `sentences.index(x[1])`, the index of the *first occurrence* of the
sentence text (`top_sentences.sort(key=lambda x: sentences.index(x[1]))`). -/
def summarySentences (text : String) (num_sentences : Nat) : List String :=
  let sentences := filteredSentences text
  if sentences.length ≤ num_sentences then sentences
  else
    let scored := sentences.enum.map
      (fun p => (sentenceScore sentences.length p.1 p.2, p.2))
    let top := (List.insertionSort (fun a b : ℚ × String => b.1 ≤ a.1) scored).take
      num_sentences
    let top2 := List.insertionSort
      (fun a b : ℚ × String => sentences.indexOf a.2 ≤ sentences.indexOf b.2) top
    top2.map Prod.snd

/-- `simple_extractive_summary(text, num_sentences)` (lines 305–324). -/
def simple_extractive_summary (text : String) (num_sentences : Nat) : String :=
  pyJoin " " (summarySentences text num_sentences)

/-! ### `summarize_text` and the unreachable Hugging Face call -/

/-- The names bound at module scope by the import statements of
lines 10–17 (`import json, boto3, requests, hashlib, re, logging`,
`from datetime import datetime, timedelta`, `from bs4 import BeautifulSoup`).
`os` is not among them. -/
def importedNames : List String :=
  ["json", "boto3", "requests", "datetime", "timedelta", "hashlib", "re",
   "BeautifulSoup", "logging"]

/-- Shape of the JSON body of a Hugging Face response: a list (each element
carrying its optional `summary_text` field) or a non-list object. -/
inductive HfJson where
  | jlist (items : List (Option String))
  | jobj
deriving DecidableEq

/-- Outcome of `requests.post` to the Hugging Face API. -/
structure HfResponse where
  status : Nat
  body : HfJson
deriving DecidableEq

/-- Lines 288–298, the remote path of `summarize_text` as it would behave if
it were reached: `none` models a raised transport error / timeout (caught by
the `except`, which falls back); on HTTP 200 with a non-empty list the first
element's `summary_text` (defaulting to `''`) is returned; every other shape
falls through to the fallback summarizer. -/
def hf_api_summarize (resp : Option HfResponse) (text : String) : String :=
  match resp with
  | none => simple_extractive_summary text 3
  | some r =>
    if r.status == 200 then
      match r.body with
      | HfJson.jlist (first :: _) => first.getD ""
      | _ => simple_extractive_summary text 3
    else simple_extractive_summary text 3

/-- `summarize_text(text)` (lines 261–303).  The first statement of the
`try` block evaluates the name `os` (line 276), which is not bound by any
import, so Python raises `NameError` before the HTTP request is built; the
`except Exception` handler (line 300) then returns the fallback summary.
The remote path is kept, guarded by the condition under which the name
lookup would have succeeded. -/
def summarize_text (resp : Option HfResponse) (text : String) : String :=
  if "os" ∈ importedNames then
    hf_api_summarize resp text
  else
    simple_extractive_summary text 3

/-! ### The DynamoDB cache (`get_cached_summary`, `cache_summary`) -/

/-- The `SummaryResult` record built at lines 104–113.  The source's
`compression_ratio` key is named `compression_ratio_q` here (its value, a
Python float, is modelled as `ℚ`). -/
structure SummaryData where
  url : String
  title : String
  summary : String
  word_count : Nat
  original_length : Nat
  compression_ratio_q : ℚ
  summarized_at : Int
deriving DecidableEq

/-- A stored cache row: `cached_at` is the outcome of
`datetime.fromisoformat(item['cached_at'])` — `Except.error` models a
malformed timestamp string making the parse raise. -/
structure CacheItem where
  cached_at : Except String Int
  summary_data : SummaryData

/-- Outcome of `cache_table.get_item`: the call raised (timeout, missing
table, …), returned no `'Item'`, or returned a row. -/
inductive GetItemResult where
  | raised
  | empty
  | item (it : CacheItem)

/-- The body of the `try` block of `get_cached_summary` (lines 162–174),
before the `except` handler: any storage or parse failure is an
`Except.error`. -/
def get_cached_summary_attempt (fetch : GetItemResult) (now : Int) :
    Except String (Option SummaryData) :=
  match fetch with
  | GetItemResult.raised => Except.error "get_item raised"
  | GetItemResult.empty => Except.ok none
  | GetItemResult.item it =>
    match it.cached_at with
    | Except.error e => Except.error e
    | Except.ok t =>
      if now - t < 24 * 3600 then Except.ok (some it.summary_data)
      else Except.ok none

/-- `get_cached_summary(cache_key)` (lines 152–177): the `except` handler
logs and returns `None`. -/
def get_cached_summary (fetch : GetItemResult) (now : Int) : Option SummaryData :=
  match get_cached_summary_attempt fetch now with
  | Except.error _ => none
  | Except.ok v => v

/-- The body of the `try` block of `cache_summary` (lines 187–198):
`putRaises` says whether `cache_table.put_item` raises. -/
def cache_summary_attempt (putRaises : Bool) : Except String Unit :=
  if putRaises then Except.error "put_item raised" else Except.ok ()

/-- `cache_summary(cache_key, summary_data)` (lines 179–200): the `except`
handler logs and swallows, so the function always returns normally
(`Except.ok`); an uncaught exception would instead be an `Except.error`
propagated to the handler's catch-all. -/
def cache_summary (putRaises : Bool) : Except String Unit :=
  match cache_summary_attempt putRaises with
  | Except.error _ => Except.ok ()
  | Except.ok _ => Except.ok ()

/-! ### `round` and the result record -/

/-- Python's banker's rounding of a (rational) value to an integer. -/
def pyRoundHalfEven (q : ℚ) : Int :=
  let f : Int := Rat.floor q
  let r : ℚ := q - (f : ℚ)
  if r < 1 / 2 then f
  else if 1 / 2 < r then f + 1
  else if f % 2 = 0 then f else f + 1

/-- Python `round(x, 2)` over the rational model. -/
def pyRound2 (q : ℚ) : ℚ := ((pyRoundHalfEven (q * 100) : Int) : ℚ) / 100

/-- The `result` dict of lines 101–113, including the division-by-zero
guard `... if summary_word_count > 0 else 0`. -/
def buildResult (url title article_text summary : String) (now : Int) :
    SummaryData :=
  let original_word_count := pyWordCount article_text
  let summary_word_count := pyWordCount summary
  ⟨url, title, summary, summary_word_count, original_word_count,
    if 0 < summary_word_count then
      pyRound2 ((original_word_count : ℚ) / (summary_word_count : ℚ))
    else 0,
    now⟩

/-! ### The parsed HTML document and `extract_article_content_and_title` -/

/-- A parsed HTML node, the shape `BeautifulSoup(response.content,
'html.parser')` hands back (the parser itself is an external collaborator;
the page oracle supplies the parsed tree). -/
inductive Node where
  | element (tag : String) (attrs : List (String × String)) (children : List Node)
  | textNode (s : String)

mutual

/-- The descendant text-node strings of a node, in document order (what
`get_text` concatenates). -/
def Node.texts : Node → List String
  | Node.textNode s => [s]
  | Node.element _ _ cs => NodeList.texts cs

/-- `Node.texts` over a forest. -/
def NodeList.texts : List Node → List String
  | [] => []
  | n :: ns => Node.texts n ++ NodeList.texts ns

end

/-- `element.get_text()` — plain concatenation (used for the title). -/
def Node.getTextRaw (n : Node) : String := pyJoin "" (Node.texts n)

/-- `element.get_text(separator=' ', strip=True)` — each string stripped,
whitespace-only strings skipped, joined by the separator. -/
def Node.getTextSepStrip (n : Node) : String :=
  pyJoin " " (((Node.texts n).map pyStrip).filter (fun s => s ≠ ""))

/-- `p.get_text(strip=True)` — stripped non-blank strings concatenated. -/
def Node.getTextStrip (n : Node) : String :=
  pyJoin "" (((Node.texts n).map pyStrip).filter (fun s => s ≠ ""))

/-- The tags decomposed at lines 228–229. -/
def removedTags : List String :=
  ["script", "style", "nav", "footer", "header", "aside"]

mutual

/-- `element.decompose()` applied to every element found by
`soup(["script", "style", ...])`: removing, at every depth, each element
whose tag is blacklisted (returning the surviving node, with its subtree
scrubbed, as a singleton). -/
def Node.scrub : Node → List Node
  | Node.textNode s => [Node.textNode s]
  | Node.element t a cs =>
    if t ∈ removedTags then [] else [Node.element t a (NodeList.scrub cs)]

/-- `Node.scrub` over a forest. -/
def NodeList.scrub : List Node → List Node
  | [] => []
  | n :: ns => Node.scrub n ++ NodeList.scrub ns

end

/-- The CSS selectors the source uses: a tag name (`article`), a class
(`.article-body`), or an id (`#content`). -/
inductive Sel where
  | tagName (t : String)
  | className (c : String)
  | idName (v : String)

/-- The whitespace-separated tokens of the `class` attribute. -/
def classTokens (attrs : List (String × String)) : List String :=
  match attrs.lookup "class" with
  | some v => pyWords v
  | none => []

/-- Whether an element matches a selector. -/
def matchesSel (s : Sel) (tag : String) (attrs : List (String × String)) : Bool :=
  match s with
  | Sel.tagName t => tag == t
  | Sel.className c => (classTokens attrs).contains c
  | Sel.idName v => attrs.lookup "id" == some v

mutual

/-- `soup.select(selector)` / `soup.find_all(tag)`: every matching element
in document (preorder) order, nested matches included. -/
def Node.selAll (s : Sel) : Node → List Node
  | Node.textNode _ => []
  | Node.element t a cs =>
    (if matchesSel s t a then [Node.element t a cs] else []) ++ NodeList.selAll s cs

/-- `Node.selAll` over a forest. -/
def NodeList.selAll : Sel → List Node → List Node
  | _, [] => []
  | s, n :: ns => Node.selAll s n ++ NodeList.selAll s ns

end

/-- The ordered content selectors of line 232. -/
def content_selectors : List Sel :=
  [Sel.tagName "article", Sel.className "article-body",
   Sel.className "story-content", Sel.tagName "main", Sel.idName "content"]

/-- The selector loop of lines 233–239: the first selector matching any
element wins and the loop breaks. -/
def firstSelectorMatches : List Sel → List Node → Option (List Node)
  | [], _ => none
  | s :: rest, doc =>
    match NodeList.selAll s doc with
    | [] => firstSelectorMatches rest doc
    | e :: es => some (e :: es)

/-- Lines 233–246: the `text_parts` list — the winning selector's elements'
`get_text(separator=' ', strip=True)`, or, when no selector matched, every
`<p>` element's `get_text(strip=True)`. -/
def extractTextParts (doc : List Node) : List String :=
  let scrubbed := NodeList.scrub doc
  match firstSelectorMatches content_selectors scrubbed with
  | some es => es.map Node.getTextSepStrip
  | none => (NodeList.selAll (Sel.tagName "p") scrubbed).map Node.getTextStrip

/-- Lines 246–248: `article_text = ' '.join(text_parts)` then
`re.sub(r'\s+', ' ', article_text).strip()`. -/
def extractCleanedText (doc : List Node) : String :=
  collapseWs (pyJoin " " (extractTextParts doc))

/-- Lines 222–224: `soup.find('title')` and
`title_tag.get_text().strip() if title_tag else "Article"` (taken before the
decompose pass, on the unscrubbed tree). -/
def extractTitle (doc : List Node) : String :=
  match (NodeList.selAll (Sel.tagName "title") doc).head? with
  | some nd => pyStrip (Node.getTextRaw nd)
  | none => "Article"

/-- `extract_article_content_and_title(url)` (lines 202–259).  The page
oracle is `none` when the fetch raised or `raise_for_status` fired (the
`except` then returns `(None, None)`), `some doc` the parsed 2xx body.
`if len(article_text.split()) < 50: return None, None` is the length floor;
otherwise `article_text[:5000], title` is returned. -/
def extract_article_content_and_title (page : Option (List Node)) :
    Option (String × String) :=
  match page with
  | none => none
  | some doc =>
    if pyWordCount (extractCleanedText doc) < 50 then none
    else some (strTake (extractCleanedText doc) 5000, extractTitle doc)

/-! ### `is_valid_url` — the compiled regex of lines 139–146

The regex is embedded as a nondeterministic matcher over character lists: a
matcher returns every possible remaining suffix, and `re.compile(...).match`
succeeds iff some parse of a prefix exists.  Both the Python backtracking
engine and this matcher decide exactly that existence.  Unbounded `+`
repetitions take the input length as fuel; every repeated atom of this
pattern consumes at least one character, so the bound is never hit. -/

/-- A nondeterministic prefix matcher: all suffixes left after a match. -/
def Matcher := List Char → List (List Char)

/-- The empty regex. -/
def mEps : Matcher := fun cs => [cs]

/-- A single character satisfying `p`. -/
def mChar (p : Char → Bool) : Matcher := fun cs =>
  match cs with
  | [] => []
  | c :: rest => if p c then [rest] else []

/-- Concatenation. -/
def mSeq (a b : Matcher) : Matcher := fun cs => (a cs).flatMap b

/-- Alternation. -/
def mAlt (a b : Matcher) : Matcher := fun cs => a cs ++ b cs

/-- `?`. -/
def mOpt (a : Matcher) : Matcher := mAlt a mEps

/-- `{0,n}`. -/
def mUpTo (a : Matcher) : Nat → Matcher
  | 0 => mEps
  | n + 1 => mAlt (mSeq a (mUpTo a n)) mEps

/-- `+`, with fuel bounding the repetition count (one mandatory occurrence
then up to `fuel` more). -/
def mPlusFuel (a : Matcher) (fuel : Nat) : Matcher := mSeq a (mUpTo a fuel)

/-- A literal, case-insensitively (the pattern is compiled with
`re.IGNORECASE`). -/
def mStrCIAux : List Char → List Char → List (List Char)
  | [], cs => [cs]
  | _ :: _, [] => []
  | p :: ps, c :: cs => if p.toLower == c.toLower then mStrCIAux ps cs else []

/-- Case-insensitive literal matcher. -/
def mStrCI (pat : String) : Matcher := fun cs => mStrCIAux pat.toList cs

/-- The character class `[A-Z09]` of the source — under `re.IGNORECASE`
letters of both cases, but of the digits only `0` and `9` (the source writes
`09`, not `0-9`). -/
def isAZ09 (c : Char) : Bool :=
  decide (('A' ≤ c ∧ c ≤ 'Z') ∨ ('a' ≤ c ∧ c ≤ 'z') ∨ c = '0' ∨ c = '9')

/-- The class `[A-Z09-]`. -/
def isAZ09dash (c : Char) : Bool := isAZ09 c || c == '-'

/-- `[A-Z]` under `re.IGNORECASE`. -/
def isAsciiLetter (c : Char) : Bool :=
  decide (('A' ≤ c ∧ c ≤ 'Z') ∨ ('a' ≤ c ∧ c ≤ 'z'))

/-- `\d`. -/
def isAsciiDigit (c : Char) : Bool := decide ('0' ≤ c ∧ c ≤ '9')

/-- `\S` (complement of `\s`). -/
def isNonSpaceRx (c : Char) : Bool := !(pyIsSpace c)

/-- A literal `.`. -/
def mDot : Matcher := mChar (fun c => c == '.')

/-- A domain label `[A-Z09](?:[A-Z09-]{0,61}[A-Z09])?`. -/
def labelM : Matcher :=
  mSeq (mChar isAZ09) (mOpt (mSeq (mUpTo (mChar isAZ09dash) 61) (mChar isAZ09)))

/-- `(?:label\.)+[A-Z]{2,6}\.?` — the domain alternative. -/
def domainM (fuel : Nat) : Matcher :=
  mSeq (mPlusFuel (mSeq labelM mDot) fuel)
    (mSeq (mSeq (mChar isAsciiLetter)
      (mSeq (mChar isAsciiLetter) (mUpTo (mChar isAsciiLetter) 4)))
      (mOpt mDot))

/-- `\d{1,3}\.\d{1,3}\.\d{1,3}\.\d{1,3}` — the dotted-quad alternative. -/
def ipM : Matcher :=
  let oct := mSeq (mChar isAsciiDigit) (mUpTo (mChar isAsciiDigit) 2)
  mSeq oct (mSeq mDot (mSeq oct (mSeq mDot (mSeq oct (mSeq mDot oct)))))

/-- The host group `(?:domain|localhost|ip)`. -/
def hostM (fuel : Nat) : Matcher :=
  mAlt (domainM fuel) (mAlt (mStrCI "localhost") ipM)

/-- `(?::\d+)?`'s mandatory part `:\d+`. -/
def portM (fuel : Nat) : Matcher :=
  mSeq (mChar (fun c => c == ':')) (mPlusFuel (mChar isAsciiDigit) fuel)

/-- The trailing group `(?:/?|[/?]\S+)`. -/
def rxTailM (fuel : Nat) : Matcher :=
  mAlt (mOpt (mChar (fun c => c == '/')))
    (mSeq (mChar (fun c => c == '/' || c == '?'))
      (mPlusFuel (mChar isNonSpaceRx) fuel))

/-- The whole pattern `^https?://(?:domain|localhost|ip)(?::\d+)?(?:/?|[/?]\S+)`. -/
def urlM (fuel : Nat) : Matcher :=
  mSeq (mStrCI "http") (mSeq (mOpt (mStrCI "s")) (mSeq (mStrCI "://")
    (mSeq (hostM fuel) (mSeq (mOpt (portM fuel)) (rxTailM fuel)))))

/-- `is_valid_url(url)` (lines 137–146): `url_pattern.match(url) is not
None`, i.e. some prefix of `url` is in the pattern's language. -/
def is_valid_url (url : String) : Bool :=
  !(urlM url.toList.length url.toList).isEmpty

/-! ### The request pipeline `lambda_handler` -/

/-- The handler's API-Gateway reply, reduced to the fields the body carries:
`ok data from_cache` is `success_response` (status 200), `err message code`
is `error_response`. -/
inductive LambdaResponse where
  | ok (data : SummaryData) (from_cache : Bool)
  | err (message : String) (statusCode : Nat)
deriving DecidableEq

/-- The POST body path of `lambda_handler` (lines 59–124), with each
external call replaced by its outcome oracle: `urlOpt` is `body.get('url')`,
`fetch` the DynamoDB read, `now` the clock, `page` the article fetch,
`resp` the Hugging Face call, `putRaises` the DynamoDB write.  (The cache
key `md5(url)` plays no role once the read outcome is given, so it is not
modelled.)  A normally-returning `cache_summary` reaches
`success_response`; an uncaught exception from it would hit the handler's
catch-all (lines 121–124). -/
def lambda_handler (urlOpt : Option String) (fetch : GetItemResult) (now : Int)
    (page : Option (List Node)) (resp : Option HfResponse) (putRaises : Bool) :
    LambdaResponse :=
  if urlOpt.getD "" = "" then LambdaResponse.err "URL is required" 400
  else if is_valid_url (urlOpt.getD "") = false then
    LambdaResponse.err "Invalid URL format" 400
  else
    match get_cached_summary fetch now with
    | some cached => LambdaResponse.ok cached true
    | none =>
      match extract_article_content_and_title page with
      | none => LambdaResponse.err "Failed to extract article content" 400
      | some (article_text, article_title) =>
        if article_text = "" then
          LambdaResponse.err "Failed to extract article content" 400
        else if summarize_text resp article_text = "" then
          LambdaResponse.err "Failed to generate summary" 500
        else
          match cache_summary putRaises with
          | Except.error e =>
            LambdaResponse.err ("Internal server error: " ++ e) 500
          | Except.ok _ =>
            LambdaResponse.ok
              (buildResult (urlOpt.getD "") article_title article_text
                (summarize_text resp article_text) now) false

/-! ### Spec-side restatements (used to compare the code against the
claims' wording) -/

/-- The selection described by claim C6 on triples `(score, index,
sentence)`: stable descending sort by score (so ties go to the earlier
original index), take the top `k`, then re-sort the selected set into
original document order (ascending position), and keep the sentences. -/
def spec_fallback_sentences (text : String) (k : Nat) : List String :=
  let sentences := filteredSentences text
  if sentences.length ≤ k then sentences
  else
    let scored := sentences.enum.map
      (fun p => (sentenceScore sentences.length p.1 p.2, p.1, p.2))
    let top := (List.insertionSort
      (fun a b : ℚ × Nat × String => b.1 ≤ a.1) scored).take k
    let docOrder := List.insertionSort
      (fun a b : ℚ × Nat × String => a.2.1 ≤ b.2.1) top
    docOrder.map (fun p => p.2.2)

/-- The fallback summary as worded by claim C6: the document-order
selection, joined. -/
def spec_fallback_summary (text : String) (k : Nat) : String :=
  pyJoin " " (spec_fallback_sentences text k)

/-- The title rule worded by claim C9: `<title>` text if present, else the
first `<h1>` text, else the placeholder. -/
def specTitleRule (doc : List Node) : String :=
  match (NodeList.selAll (Sel.tagName "title") doc).head? with
  | some nd => pyStrip (Node.getTextRaw nd)
  | none =>
    match (NodeList.selAll (Sel.tagName "h1") doc).head? with
    | some nd => pyStrip (Node.getTextRaw nd)
    | none => "Article"

/-- The amended title rule (what the code implements): `<title>` text if
present, else the placeholder — no `<h1>` step. -/
def titleRuleNoH1 (doc : List Node) : String :=
  match (NodeList.selAll (Sel.tagName "title") doc).head? with
  | some nd => pyStrip (Node.getTextRaw nd)
  | none => "Article"

/-! ### Concrete inputs for counterexamples and witnesses -/

/-- A one-sentence text of `n` copies of the word `w`, ending in `.`. -/
def repSent (w : String) (n : Nat) : String :=
  pyJoin " " (List.replicate n w) ++ "."

/-- Fifty words, but every sentence has only two words (≤ 5), so the
fallback summarizer's noise filter discards them all. -/
def c1Text : String := pyJoin " " (List.replicate 25 "a b.")

/-- A page whose `<article>` body is `c1Text`. -/
def c1Doc : List Node := [Node.element "article" [] [Node.textNode c1Text]]

/-- Duplicate-sentence input for claim C6: sentences A, B, C, A with word
counts 20, 8, 6, 20 — scores 20, 6, 3 and 5, so A, B and the *second* A are
selected while C is not. -/
def c6SentA : String := repSent "alpha" 20

/-- The 8-word sentence of the C6 duplicate input. -/
def c6SentB : String := repSent "beta" 8

/-- The 6-word sentence of the C6 duplicate input. -/
def c6SentC : String := repSent "gamma" 6

/-- The duplicate-sentence document `A B C A` for claim C6. -/
def c6DupText : String :=
  c6SentA ++ " " ++ c6SentB ++ " " ++ c6SentC ++ " " ++ c6SentA

/-- Duplicate-free input for the C6 witness, with score order different
from document order (word counts 7, 20, 8, 10 give scores 7, 15, 4, 2.5). -/
def c6DistinctText : String :=
  repSent "one" 7 ++ " " ++ repSent "two" 20 ++ " " ++ repSent "three" 8
    ++ " " ++ repSent "four" 10

/-- Duplicate-sentence input for claim C7 (word counts 22, 8, 6, 22). -/
def c7SentA : String := repSent "delta" 22

/-- The 8-word sentence of the C7 duplicate input. -/
def c7SentB : String := repSent "epsilon" 8

/-- The 6-word sentence of the C7 duplicate input. -/
def c7SentC : String := repSent "zeta" 6

/-- The duplicate-sentence document `A B C A` for claim C7. -/
def c7DupText : String :=
  c7SentA ++ " " ++ c7SentB ++ " " ++ c7SentC ++ " " ++ c7SentA

/-- Duplicate-free input for the C7 witness (word counts 6, 18, 7, 12). -/
def c7DistinctText : String :=
  repSent "red" 6 ++ " " ++ repSent "green" 18 ++ " " ++ repSent "blue" 7
    ++ " " ++ repSent "grey" 12

/-- A page with a 51-word `<article>` for the C8 witness. -/
def c8Doc : List Node := [Node.element "article" [] [Node.textNode (repSent "w" 51)]]

/-- The record the C8 witness run builds. -/
def c8Data : SummaryData :=
  buildResult "http://example.com" "Article" (repSent "w" 51) (repSent "w" 51) 5

/-- A page with no `<title>` but an `<h1>`, and enough article text to pass
extraction — the C9 counterexample. -/
def c9H1Doc : List Node :=
  [Node.element "h1" [] [Node.textNode "Big Headline"],
   Node.element "article" [] [Node.textNode (repSent "word" 51)]]

/-- A page with a (padded) `<title>` for the C9 witness. -/
def c9TitleDoc : List Node :=
  [Node.element "head" [] [Node.element "title" [] [Node.textNode "  My Title "]],
   Node.element "article" [] [Node.textNode (repSent "w" 55)]]

/-- A too-short page for the C10 witness. -/
def c10SmallDoc : List Node :=
  [Node.element "p" [] [Node.textNode "five words only here now."]]

/-- A long-enough page (60 words under `<main>`) for the C10 witness. -/
def c10BigDoc : List Node :=
  [Node.element "main" [] [Node.textNode (repSent "data" 60)]]

/-- An arbitrary concrete stored record for the cache-freshness witnesses. -/
def w4data : SummaryData := ⟨"http://example.com", "T", "s", 1, 1, 1, 0⟩

/-! ### Helper lemmas about the stable sorts -/

/-- `orderedInsert` commutes with a map when the relations agree on the
image (pointwise on the inserted element against the list). -/
theorem orderedInsert_map_congr {α β : Type} (r : β → β → Prop) (r' : α → α → Prop)
    [DecidableRel r] [DecidableRel r'] (f : α → β) (a : α) (l : List α)
    (h : ∀ b ∈ l, (r (f a) (f b) ↔ r' a b)) :
    List.orderedInsert r (f a) (l.map f) = (List.orderedInsert r' a l).map f := by
  induction l with
  | nil => simp
  | cons b bs ih =>
    simp only [List.map_cons, List.orderedInsert]
    by_cases hr : r' a b
    · rw [if_pos ((h b (List.mem_cons_self b bs)).mpr hr), if_pos hr]
      simp
    · rw [if_neg (fun hc => hr ((h b (List.mem_cons_self b bs)).mp hc)), if_neg hr,
        List.map_cons, ih (fun c hc => h c (List.mem_cons_of_mem b hc))]

/-- `insertionSort` commutes with a map when the relations agree on pairs
of list elements. -/
theorem insertionSort_map_congr {α β : Type} (r : β → β → Prop) (r' : α → α → Prop)
    [DecidableRel r] [DecidableRel r'] (f : α → β) (l : List α)
    (h : ∀ a ∈ l, ∀ b ∈ l, (r (f a) (f b) ↔ r' a b)) :
    List.insertionSort r (l.map f) = (List.insertionSort r' l).map f := by
  induction l with
  | nil => simp
  | cons a as ih =>
    simp only [List.map_cons, List.insertionSort]
    rw [ih (fun x hx y hy =>
      h x (List.mem_cons_of_mem a hx) y (List.mem_cons_of_mem a hy))]
    exact orderedInsert_map_congr r r' f a _
      (fun b hb => h a (List.mem_cons_self a as) b
        (List.mem_cons_of_mem a ((List.perm_insertionSort r' as).mem_iff.mp hb)))

/-- Elements of a truncated insertion sort come from the original list. -/
theorem mem_take_insertionSort {α : Type} (r : α → α → Prop) [DecidableRel r]
    (l : List α) (k : Nat) {x : α}
    (hx : x ∈ (List.insertionSort r l).take k) : x ∈ l :=
  (List.perm_insertionSort r l).mem_iff.mp (List.take_subset k _ hx)

/-- `indexOf` returns the position of an element of a duplicate-free list
(stated over `getElem?` so it applies to `enum` members). -/
theorem indexOf_eq_of_nodup {l : List String} (hnd : l.Nodup) :
    ∀ {i : Nat} {a : String}, l[i]? = some a → l.indexOf a = i := by
  induction l with
  | nil => intro i a h; simp at h
  | cons b bs ih =>
    intro i a h
    cases i with
    | zero =>
      simp only [List.getElem?_cons_zero, Option.some.injEq] at h
      subst h
      simp [List.indexOf_cons]
    | succ n =>
      simp only [List.getElem?_cons_succ] at h
      have hmem : a ∈ bs := List.getElem?_mem h
      have hba : (b == a) = false := by
        have : b ≠ a := fun e => (List.nodup_cons.mp hnd).1 (e ▸ hmem)
        simpa using this
      rw [List.indexOf_cons, hba, cond_false, ih (List.nodup_cons.mp hnd).2 h]

/-- Mapping positions to values lands on a sublist when the positions are
strictly increasing. -/
theorem map_sublist_of_increasing {α : Type} :
    ∀ (Y : List α) (key : α → Nat) (val : α → String) (ss : List String),
      (∀ x ∈ Y, ss[key x]? = some (val x)) →
      Y.Pairwise (fun a b => key a < key b) →
      (Y.map val).Sublist ss := by
  intro Y
  induction Y with
  | nil => intro key val ss _ _; simp
  | cons x xs ih =>
    intro key val ss hget hpair
    have hx : ss[key x]? = some (val x) := hget x (List.mem_cons_self x xs)
    have hxlen : key x < ss.length := by
      by_contra hlt
      rw [List.getElem?_eq_none (Nat.le_of_not_lt hlt)] at hx
      exact Option.noConfusion hx
    have hval : ss[key x] = val x := by
      have h1 := List.getElem?_eq_getElem hxlen
      rw [h1] at hx
      exact Option.some.inj hx
    have hdropcons : ss.drop (key x) = val x :: ss.drop (key x + 1) := by
      rw [List.drop_eq_getElem_cons hxlen, hval]
    have htail : (xs.map val).Sublist (ss.drop (key x + 1)) := by
      apply ih (fun y => key y - (key x + 1)) val
      · intro y hy
        have h1 : key x < key y := (List.pairwise_cons.mp hpair).1 y hy
        rw [List.getElem?_drop]
        have h2 : key x + 1 + (key y - (key x + 1)) = key y := by omega
        rw [h2]
        exact hget y (List.mem_cons_of_mem x hy)
      · refine ((List.pairwise_cons.mp hpair).2).imp_of_mem ?_
        intro a b ha _ hab
        have h1 : key x < key a := (List.pairwise_cons.mp hpair).1 a ha
        omega
    have h1 : (val x :: xs.map val).Sublist (val x :: ss.drop (key x + 1)) :=
      List.Sublist.cons₂ _ htail
    have h2 : (val x :: ss.drop (key x + 1)).Sublist ss := by
      rw [← hdropcons]
      exact List.drop_sublist _ _
    rw [List.map_cons]
    exact h1.trans h2

/-- The spec-side selection is always in document order: it is a sublist of
the filtered sentence list. -/
theorem spec_fallback_sublist (text : String) (k : Nat) :
    (spec_fallback_sentences text k).Sublist (filteredSentences text) := by
  by_cases hle : (filteredSentences text).length ≤ k
  · simp only [spec_fallback_sentences, if_pos hle]
    exact List.Sublist.refl _
  · simp only [spec_fallback_sentences, if_neg hle]
    apply map_sublist_of_increasing _ (fun x : ℚ × Nat × String => x.2.1)
      (fun x : ℚ × Nat × String => x.2.2) (filteredSentences text)
    · intro x hx
      have hx1 := (List.perm_insertionSort
        (fun a b : ℚ × Nat × String => a.2.1 ≤ b.2.1) _).mem_iff.mp hx
      have hx2 := mem_take_insertionSort
        (fun a b : ℚ × Nat × String => b.1 ≤ a.1) _ k hx1
      obtain ⟨p, hp, rfl⟩ := List.mem_map.mp hx2
      exact List.mem_enum_iff_getElem?.mp hp
    · haveI : IsTotal (ℚ × Nat × String) (fun a b => a.2.1 ≤ b.2.1) :=
        ⟨fun a b => Nat.le_total _ _⟩
      haveI : IsTrans (ℚ × Nat × String) (fun a b => a.2.1 ≤ b.2.1) :=
        ⟨fun _ _ _ h1 h2 => Nat.le_trans h1 h2⟩
      have hsorted := List.sorted_insertionSort
        (fun a b : ℚ × Nat × String => a.2.1 ≤ b.2.1)
        ((List.insertionSort (fun a b : ℚ × Nat × String => b.1 ≤ a.1)
          ((filteredSentences text).enum.map
            (fun p => (sentenceScore (filteredSentences text).length p.1 p.2,
              p.1, p.2)))).take k)
      have h0 : ((((filteredSentences text).enum.map
          (fun p => (sentenceScore (filteredSentences text).length p.1 p.2,
            p.1, p.2))).map (fun x : ℚ × Nat × String => x.2.1)).Nodup) := by
        rw [List.map_map]
        have he : ((fun x : ℚ × Nat × String => x.2.1) ∘
            (fun p : Nat × String =>
              (sentenceScore (filteredSentences text).length p.1 p.2, p.1, p.2)))
            = Prod.fst := rfl
        rw [he, List.enum_map_fst]
        exact List.nodup_range _
      have h1 := ((List.perm_insertionSort
        (fun a b : ℚ × Nat × String => b.1 ≤ a.1) _).map
          (fun x : ℚ × Nat × String => x.2.1)).nodup_iff.mpr h0
      have h2 := List.Nodup.sublist
        ((List.take_sublist k _).map (fun x : ℚ × Nat × String => x.2.1)) h1
      have h3 := ((List.perm_insertionSort
        (fun a b : ℚ × Nat × String => a.2.1 ≤ b.2.1) _).map
          (fun x : ℚ × Nat × String => x.2.1)).nodup_iff.mpr h2
      have hne := List.pairwise_map.mp h3
      exact (List.Pairwise.and hsorted hne).imp
        (fun h => Nat.lt_of_le_of_ne h.1 h.2)

/-- On duplicate-free sentence lists, re-sorting by
`sentences.index(x[1])` is re-sorting by true original position: the code's
selection equals the spec-side (document-order) selection. -/
theorem summarySentences_eq_spec (text : String) (k : Nat)
    (hnd : (filteredSentences text).Nodup) :
    summarySentences text k = spec_fallback_sentences text k := by
  by_cases hle : (filteredSentences text).length ≤ k
  · simp only [summarySentences, spec_fallback_sentences, if_pos hle]
  · simp only [summarySentences, spec_fallback_sentences, if_neg hle]
    have hmap : (filteredSentences text).enum.map
        (fun p => (sentenceScore (filteredSentences text).length p.1 p.2, p.2))
        = ((filteredSentences text).enum.map
            (fun p => (sentenceScore (filteredSentences text).length p.1 p.2,
              p.1, p.2))).map
          (fun q : ℚ × Nat × String => (q.1, q.2.2)) := by
      rw [List.map_map]; rfl
    have hagree : ∀ a ∈ (List.insertionSort
        (fun a b : ℚ × Nat × String => b.1 ≤ a.1)
        ((filteredSentences text).enum.map
          (fun p => (sentenceScore (filteredSentences text).length p.1 p.2,
            p.1, p.2)))).take k,
        ∀ b ∈ (List.insertionSort
          (fun a b : ℚ × Nat × String => b.1 ≤ a.1)
          ((filteredSentences text).enum.map
            (fun p => (sentenceScore (filteredSentences text).length p.1 p.2,
              p.1, p.2)))).take k,
        ((filteredSentences text).indexOf a.2.2 ≤
            (filteredSentences text).indexOf b.2.2
          ↔ a.2.1 ≤ b.2.1) := by
      intro a ha b hb
      have hia : (filteredSentences text).indexOf a.2.2 = a.2.1 := by
        have ha2 := mem_take_insertionSort
          (fun a b : ℚ × Nat × String => b.1 ≤ a.1) _ k ha
        obtain ⟨p, hp, rfl⟩ := List.mem_map.mp ha2
        exact indexOf_eq_of_nodup hnd (List.mem_enum_iff_getElem?.mp hp)
      have hib : (filteredSentences text).indexOf b.2.2 = b.2.1 := by
        have hb2 := mem_take_insertionSort
          (fun a b : ℚ × Nat × String => b.1 ≤ a.1) _ k hb
        obtain ⟨p, hp, rfl⟩ := List.mem_map.mp hb2
        exact indexOf_eq_of_nodup hnd (List.mem_enum_iff_getElem?.mp hp)
      rw [hia, hib]
    rw [hmap,
      insertionSort_map_congr (fun a b : ℚ × String => b.1 ≤ a.1)
        (fun a b : ℚ × Nat × String => b.1 ≤ a.1)
        (fun q : ℚ × Nat × String => (q.1, q.2.2)) _ (fun a _ b _ => Iff.rfl),
      ← List.map_take,
      insertionSort_map_congr
        (fun a b : ℚ × String =>
          (filteredSentences text).indexOf a.2 ≤
            (filteredSentences text).indexOf b.2)
        (fun a b : ℚ × Nat × String => a.2.1 ≤ b.2.1)
        (fun q : ℚ × Nat × String => (q.1, q.2.2)) _ hagree,
      List.map_map]
    rfl

/-! ### Helper lemmas about emptiness of the fallback summary -/

/-- A text of whitespace only splits into no words. -/
theorem wordsAux_nil_of_all_space :
    ∀ (l : List Char), (∀ c ∈ l, pyIsSpace c = true) → wordsAux l [] = [] := by
  intro l
  induction l with
  | nil => intro _; rfl
  | cons c rest ih =>
    intro h
    have hc := h c (List.mem_cons_self c rest)
    simp only [wordsAux, hc, if_true, List.isEmpty_nil]
    exact ih (fun d hd => h d (List.mem_cons_of_mem c hd))

/-- A string with a word has a non-whitespace character. -/
theorem exists_nonspace_of_pyWords_ne_nil {s : String} (h : pyWords s ≠ []) :
    ∃ c ∈ s.toList, pyIsSpace c = false := by
  by_contra hall
  push_neg at hall
  apply h
  show (wordsAux s.toList []).map String.mk = []
  rw [wordsAux_nil_of_all_space s.toList (fun c hc => by
    have hb := hall c hc
    revert hb
    cases pyIsSpace c <;> simp)]
  rfl

/-- `dropWhile` keeps every element the predicate rejects. -/
theorem mem_dropWhile_of_mem {p : Char → Bool} {c : Char} :
    ∀ {l : List Char}, c ∈ l → p c = false → c ∈ l.dropWhile p := by
  intro l
  induction l with
  | nil => intro h _; cases h
  | cons a as ih =>
    intro hmem hpc
    rw [List.dropWhile_cons]
    by_cases hpa : p a = true
    · simp only [hpa, if_true]
      rcases List.mem_cons.mp hmem with he | hm
      · subst he; rw [hpc] at hpa; cases hpa
      · exact ih hm hpc
    · simp only [Bool.not_eq_true] at hpa
      simp only [hpa, Bool.false_eq_true, if_false]
      exact hmem

/-- Stripping keeps a non-whitespace character, so the result is
non-empty. -/
theorem stripChars_ne_nil {l : List Char} {c : Char} (hc : c ∈ l)
    (hp : pyIsSpace c = false) : stripChars l ≠ [] := by
  have h1 : c ∈ l.dropWhile pyIsSpace := mem_dropWhile_of_mem hc hp
  have h2 : c ∈ (l.dropWhile pyIsSpace).reverse := List.mem_reverse.mpr h1
  have h3 : c ∈ (l.dropWhile pyIsSpace).reverse.dropWhile pyIsSpace :=
    mem_dropWhile_of_mem h2 hp
  exact List.ne_nil_of_mem (List.mem_reverse.mpr h3)

/-- A string with at least one word does not strip to the empty string. -/
theorem pyStrip_ne_empty_of_wordCount {s : String} (h : 0 < pyWordCount s) :
    pyStrip s ≠ "" := by
  have hne : pyWords s ≠ [] := by
    intro he
    rw [pyWordCount, he] at h
    exact absurd h (by simp)
  obtain ⟨c, hc, hsp⟩ := exists_nonspace_of_pyWords_ne_nil hne
  intro he
  have hd : stripChars s.toList = [] := congrArg String.data he
  exact stripChars_ne_nil hc hsp hd

/-- Every sentence surviving the noise filter is a non-empty string. -/
theorem mem_filtered_ne_empty {text s : String}
    (hs : s ∈ filteredSentences text) : s ≠ "" := by
  obtain ⟨s₀, hs₀, rfl⟩ := List.mem_map.mp hs
  have h5 : 5 < pyWordCount s₀ := by
    have hf := (List.mem_filter.mp hs₀).2
    simpa using hf
  exact pyStrip_ne_empty_of_wordCount (Nat.lt_of_lt_of_le (by omega) (Nat.le_refl _))

/-- Every sentence of the selected summary comes from the filtered list. -/
theorem mem_summarySentences {text : String} {k : Nat} {s : String}
    (hs : s ∈ summarySentences text k) : s ∈ filteredSentences text := by
  by_cases hle : (filteredSentences text).length ≤ k
  · simpa only [summarySentences, if_pos hle] using hs
  · simp only [summarySentences, if_neg hle] at hs
    obtain ⟨x, hx, rfl⟩ := List.mem_map.mp hs
    have hx1 := (List.perm_insertionSort
      (fun a b : ℚ × String =>
        (filteredSentences text).indexOf a.2 ≤
          (filteredSentences text).indexOf b.2) _).mem_iff.mp hx
    have hx2 := mem_take_insertionSort
      (fun a b : ℚ × String => b.1 ≤ a.1) _ k hx1
    obtain ⟨p, hp, rfl⟩ := List.mem_map.mp hx2
    exact List.snd_mem_of_mem_enum hp

/-- With a positive target count and a non-empty filtered list, the
selection is non-empty. -/
theorem summarySentences_ne_nil {text : String} {k : Nat} (h0 : 0 < k)
    (hne : filteredSentences text ≠ []) : summarySentences text k ≠ [] := by
  by_cases hle : (filteredSentences text).length ≤ k
  · simpa only [summarySentences, if_pos hle] using hne
  · simp only [summarySentences, if_neg hle]
    intro he
    have hlen := congrArg List.length he
    rw [List.length_map,
      (List.perm_insertionSort (fun a b : ℚ × String =>
        (filteredSentences text).indexOf a.2 ≤
          (filteredSentences text).indexOf b.2) _).length_eq,
      List.length_take,
      (List.perm_insertionSort (fun a b : ℚ × String => b.1 ≤ a.1) _).length_eq,
      List.length_map, List.enum_length] at hlen
    simp only [List.length_nil] at hlen
    omega

/-- Joining a non-empty list of non-empty strings with a space gives a
non-empty string. -/
theorem pyJoin_space_ne_empty :
    ∀ (l : List String), l ≠ [] → (∀ s ∈ l, s ≠ "") → pyJoin " " l ≠ "" := by
  intro l
  match l with
  | [] => intro h; exact absurd rfl h
  | [s] =>
    intro _ h
    simpa only [pyJoin] using h s (List.mem_cons_self s [])
  | s :: t :: rest =>
    intro _ _ he
    have hlen := congrArg String.length he
    simp only [pyJoin, String.length_append] at hlen
    have hsp : (" " : String).length = 1 := rfl
    rw [hsp] at hlen
    simp at hlen

/-- The fallback summary (at the default target 3) is empty exactly when no
sentence survives the `> 5` words noise filter. -/
theorem fallback_empty_iff (text : String) :
    (simple_extractive_summary text 3 = "" ↔ filteredSentences text = []) := by
  constructor
  · intro h
    by_contra hne
    exact pyJoin_space_ne_empty _ (summarySentences_ne_nil (by omega) hne)
      (fun s hs => mem_filtered_ne_empty (mem_summarySentences hs)) h
  · intro h
    simp only [simple_extractive_summary, summarySentences, h, List.length_nil,
      Nat.zero_le, if_pos]
    rfl

/-- Because `os` is not imported, `summarize_text` always returns the local
fallback summary. -/
theorem summarize_eq_fallback (resp : Option HfResponse) (text : String) :
    summarize_text resp text = simple_extractive_summary text 3 := by
  rw [summarize_text, if_neg (by decide)]

/-! ### The claims -/

/-- Claim C2: for every input text (and whatever the Hugging Face call
would have returned), `summarize_text(text)` returns exactly
`simple_extractive_summary(text)` with the default target of 3 sentences:
the module never imports `os`, so the remote call path is unreachable and
control always lands in the fallback. -/
theorem claim_C2 : ∀ (resp : Option HfResponse) (text : String),
    summarize_text resp text = simple_extractive_summary text 3
    ∧ "os" ∉ importedNames :=
  fun resp text => ⟨summarize_eq_fallback resp text, by decide⟩

/-- Claim C3 is wrong about the code: the regex character class for domain
labels is `[A-Z09]` — a typo for `[A-Z0-9]` — so the well-formed URL
`http://example1.com` (any domain containing a digit 1–8) is rejected,
while `http://example.com` is accepted; and since `re.match` only anchors a
prefix, strings with trailing garbage are accepted too. -/
theorem claim_C3_bug :
    is_valid_url "http://example1.com" = false
    ∧ is_valid_url "http://example.com" = true
    ∧ is_valid_url "http://example.com%%% not a url" = true
    ∧ is_valid_url "" = false
    ∧ is_valid_url "example.com" = false
    ∧ is_valid_url "ftp://example.com" = false := by
  refine ⟨by decide, by decide, by decide, by decide, by decide, by decide⟩

/-- Claim C4: a well-formed cache row is returned exactly when it is
present and `now - cached_at < 24` hours; a missing row is a miss. -/
theorem claim_C4 : ∀ (it : CacheItem) (t now : Int) (r : SummaryData),
    it.cached_at = Except.ok t →
    ((get_cached_summary (GetItemResult.item it) now = some r ↔
      (now - t < 24 * 3600 ∧ r = it.summary_data))
     ∧ get_cached_summary GetItemResult.empty now = none) := by
  intro it t now r h
  constructor
  · simp only [get_cached_summary, get_cached_summary_attempt, h]
    by_cases hlt : now - t < 24 * 3600
    · rw [if_pos hlt]
      simp only [Option.some.injEq]
      constructor
      · intro he
        exact ⟨by omega, he.symm⟩
      · intro hc
        exact hc.2.symm
    · rw [if_neg hlt]
      constructor
      · intro he
        exact absurd he (by simp)
      · intro hc
        exact absurd hc.1 (by omega)
  · rfl

/-- Claim C4's two freshness examples: with `cached_at = now - 23h` the
stored record is returned, with `cached_at = now - 25h` the entry counts as
absent (`now = 0`, ages in seconds). -/
theorem claim_C4_witness :
    get_cached_summary
      (GetItemResult.item ⟨Except.ok (-(23 * 3600)), w4data⟩) 0 = some w4data
    ∧ get_cached_summary
      (GetItemResult.item ⟨Except.ok (-(25 * 3600)), w4data⟩) 0 = none := by
  constructor
  · exact ((claim_C4 ⟨Except.ok (-(23 * 3600)), w4data⟩ (-(23 * 3600)) 0 w4data
      rfl).1).mpr ⟨by decide, rfl⟩
  · cases hg : get_cached_summary
      (GetItemResult.item ⟨Except.ok (-(25 * 3600)), w4data⟩) 0 with
    | none => rfl
    | some r =>
      exact absurd (((claim_C4 ⟨Except.ok (-(25 * 3600)), w4data⟩
        (-(25 * 3600)) 0 r rfl).1).mp hg).1 (by decide)

/-- Claim C5: cache-layer failures never surface.  A raised `get_item` and
a malformed stored timestamp both read as a miss; `cache_summary` returns
normally whether or not `put_item` raises; and the whole pipeline responds
identically on a cache-read failure and a plain miss, and identically on a
failed and a successful cache write. -/
theorem claim_C5 : ∀ (now : Int) (pf : Bool) (it : CacheItem) (e : String),
    get_cached_summary GetItemResult.raised now = none
    ∧ (it.cached_at = Except.error e →
        get_cached_summary (GetItemResult.item it) now = none)
    ∧ cache_summary pf = Except.ok ()
    ∧ (∀ (urlOpt : Option String) (page : Option (List Node))
        (resp : Option HfResponse) (pf₂ : Bool),
        lambda_handler urlOpt GetItemResult.raised now page resp pf₂ =
          lambda_handler urlOpt GetItemResult.empty now page resp pf₂)
    ∧ (∀ (urlOpt : Option String) (fetch : GetItemResult)
        (page : Option (List Node)) (resp : Option HfResponse),
        lambda_handler urlOpt fetch now page resp true =
          lambda_handler urlOpt fetch now page resp false) := by
  intro now pf it e
  refine ⟨rfl, fun h => ?_, ?_, fun u p r pf₂ => ?_, fun u f p r => ?_⟩
  · simp [get_cached_summary, get_cached_summary_attempt, h]
  · cases pf <;> rfl
  · rw [lambda_handler, lambda_handler,
      show get_cached_summary GetItemResult.raised now =
        get_cached_summary GetItemResult.empty now from rfl]
  · rw [lambda_handler, lambda_handler,
      show cache_summary true = cache_summary false from rfl]

/-- Claim C5 instantiated: a row whose timestamp does not parse reads as a
miss, and a raising `put_item` still returns normally. -/
theorem claim_C5_witness :
    get_cached_summary
      (GetItemResult.item ⟨Except.error "bad isoformat", w4data⟩) 0 = none
    ∧ cache_summary true = Except.ok () :=
  ⟨(claim_C5 0 true ⟨Except.error "bad isoformat", w4data⟩ "bad isoformat").2.1 rfl,
   (claim_C5 0 true ⟨Except.error "bad isoformat", w4data⟩ "bad isoformat").2.2.1⟩

/-- Claim C8: every freshly produced result record carries
`compression_ratio = round(original_length / word_count, 2)` when the
summary word count is positive and `0` when it is zero (no
division-by-zero fault — `ℚ` division is total and the zero case is
guarded); and `round(100 / 20, 2) = 5`. -/
theorem claim_C8 :
    (∀ (urlOpt : Option String) (fetch : GetItemResult) (now : Int)
      (page : Option (List Node)) (resp : Option HfResponse) (pf : Bool)
      (d : SummaryData),
      lambda_handler urlOpt fetch now page resp pf = LambdaResponse.ok d false →
      SummaryData.compression_ratio_q d =
        (if 0 < d.word_count then
          pyRound2 ((d.original_length : ℚ) / (d.word_count : ℚ))
        else 0))
    ∧ (∀ (url title article_text summary : String) (now : Int),
      pyWordCount summary = 0 →
      SummaryData.compression_ratio_q
        (buildResult url title article_text summary now) = 0)
    ∧ pyRound2 ((100 : ℚ) / (20 : ℚ)) = 5 := by
  refine ⟨?_, ?_, by with_unfolding_all decide⟩
  · intro urlOpt fetch now page resp pf d h
    rw [lambda_handler] at h
    split at h
    · exact absurd h (by simp)
    · split at h
      · exact absurd h (by simp)
      · split at h
        · simp only [LambdaResponse.ok.injEq] at h
          exact absurd h.2 (by simp)
        · split at h
          · exact absurd h (by simp)
          · split at h
            · exact absurd h (by simp)
            · split at h
              · exact absurd h (by simp)
              · split at h
                · exact absurd h (by simp)
                · simp only [LambdaResponse.ok.injEq] at h
                  rw [← h.1]
                  rfl
  · intro url title article_text summary now h
    simp only [buildResult, h]
    rfl

/-- Claim C8 exercised end to end: a fresh 51-word article produces a
record whose ratio satisfies the guarded formula. -/
theorem claim_C8_witness :
    lambda_handler (some "http://example.com") GetItemResult.empty 5
      (some c8Doc) none false = LambdaResponse.ok c8Data false
    ∧ SummaryData.compression_ratio_q c8Data =
      (if 0 < c8Data.word_count then
        pyRound2 ((c8Data.original_length : ℚ) / (c8Data.word_count : ℚ))
      else 0) := by
  have h : lambda_handler (some "http://example.com") GetItemResult.empty 5
      (some c8Doc) none false = LambdaResponse.ok c8Data false := by
    with_unfolding_all decide
  exact ⟨h, claim_C8.1 (some "http://example.com") GetItemResult.empty 5
    (some c8Doc) none false c8Data h⟩

/-- Claim C1 is wrong about the code: `c1Text` has 50 words (it passes the
extractor's 50-word floor and is exactly what extraction returns for
`c1Doc`), yet every sentence has 2 words, the noise filter discards them
all, `summarize_text` returns the empty string, and the request ends with
the `Failed to generate summary` 500 error. -/
theorem claim_C1_counterexample :
    50 ≤ pyWordCount (extractCleanedText c1Doc)
    ∧ extract_article_content_and_title (some c1Doc) = some (c1Text, "Article")
    ∧ summarize_text none c1Text = ""
    ∧ lambda_handler (some "http://example.com") GetItemResult.empty 0
        (some c1Doc) none false =
      LambdaResponse.err "Failed to generate summary" 500 := by
  refine ⟨by decide, by decide, by with_unfolding_all decide,
    by with_unfolding_all decide⟩

/-- Claim C1 amended: `summarize_text` never raises and always returns a
string, but that string is empty exactly when no sentence of the input has
more than 5 words — for such texts (even 50-word ones) the handler returns
the `Failed to generate summary` error instead of a summary. -/
theorem claim_C1_amended : ∀ (resp : Option HfResponse) (text : String),
    (summarize_text resp text = "" ↔ filteredSentences text = []) := by
  intro resp text
  rw [summarize_eq_fallback]
  exact fallback_empty_iff text

/-- Claim C6 is wrong about the re-sort step: on `c6DupText` (sentences
`A B C A`) the code selects the first `A`, `B` and the second `A`, but
`top_sentences.sort(key=lambda x: sentences.index(x[1]))` keys both copies
of `A` by the *first* occurrence, yielding `A A B` instead of the document
order `A B A` the claim describes. -/
theorem claim_C6_counterexample :
    summarySentences c6DupText 3 = [c6SentA, c6SentA, c6SentB]
    ∧ spec_fallback_sentences c6DupText 3 = [c6SentA, c6SentB, c6SentA]
    ∧ simple_extractive_summary c6DupText 3 ≠ spec_fallback_summary c6DupText 3 := by
  refine ⟨by with_unfolding_all decide, by with_unfolding_all decide,
    by with_unfolding_all decide⟩

/-- Claim C6 amended: the code follows the claimed selection pipeline
(filter, all-if-few, score `wordCount * (1 - i/n)`, stable top-`N` with
ties to the earlier index) but re-sorts the selected sentences by the index
of the first occurrence of their text; whenever the filtered sentences are
pairwise distinct this is exactly the claimed re-sort into original
document order. -/
theorem claim_C6_amended : ∀ (text : String) (k : Nat),
    (filteredSentences text).Nodup →
    simple_extractive_summary text k = spec_fallback_summary text k := by
  intro text k hnd
  rw [simple_extractive_summary, spec_fallback_summary,
    summarySentences_eq_spec text k hnd]

/-- Claim C6's amended statement exercised: on a duplicate-free input whose
score order differs from document order, the code output equals the
document-order selection. -/
theorem claim_C6_witness :
    (filteredSentences c6DistinctText).Nodup
    ∧ simple_extractive_summary c6DistinctText 3 =
        spec_fallback_summary c6DistinctText 3 :=
  ⟨by with_unfolding_all decide,
   claim_C6_amended c6DistinctText 3 (by with_unfolding_all decide)⟩

/-- Claim C7 is wrong about the order property: on `c7DupText` (sentences
`A B C A`) the selected sentences come out as `A A B`, which is not a
subsequence of the document's sentence sequence `A B C A` — the second
output `A` and the following `B` cannot both be matched in document order. -/
theorem claim_C7_counterexample :
    summarySentences c7DupText 3 = [c7SentA, c7SentA, c7SentB]
    ∧ filteredSentences c7DupText = [c7SentA, c7SentB, c7SentC, c7SentA]
    ∧ ¬ (summarySentences c7DupText 3).Sublist (filteredSentences c7DupText) := by
  refine ⟨by with_unfolding_all decide, by decide, by with_unfolding_all decide⟩

/-- Claim C7 amended: the fallback summarizer is deterministic (it is a
pure function of the text and target count — two runs on equal inputs are
the same application), and whenever the filtered sentences are pairwise
distinct the selected sentences do appear in original document order (a
sublist of the filtered sequence). -/
theorem claim_C7_amended : ∀ (text : String) (k : Nat),
    simple_extractive_summary text k = simple_extractive_summary text k
    ∧ ((filteredSentences text).Nodup →
        (summarySentences text k).Sublist (filteredSentences text)) := by
  intro text k
  refine ⟨rfl, fun hnd => ?_⟩
  rw [summarySentences_eq_spec text k hnd]
  exact spec_fallback_sublist text k

/-- Claim C7's amended statement exercised on a duplicate-free input. -/
theorem claim_C7_witness :
    (filteredSentences c7DistinctText).Nodup
    ∧ (summarySentences c7DistinctText 3).Sublist
        (filteredSentences c7DistinctText) :=
  ⟨by with_unfolding_all decide,
   (claim_C7_amended c7DistinctText 3).2 (by with_unfolding_all decide)⟩

/-- Claim C9 is wrong about the code: there is no `<h1>` fallback.  On a
page with no `<title>` but an `<h1>` of `Big Headline`, the claim's rule
gives `Big Headline` while the code returns the placeholder `Article`
(lines 223–224 go straight from the missing title tag to `"Article"`). -/
theorem claim_C9_counterexample :
    extract_article_content_and_title (some c9H1Doc) =
      some (repSent "word" 51, "Article")
    ∧ specTitleRule c9H1Doc = "Big Headline"
    ∧ extractTitle c9H1Doc ≠ specTitleRule c9H1Doc := by
  refine ⟨by decide, by decide, by decide⟩

/-- Claim C9 amended: for every successfully fetched and extracted page,
the returned title is the page's `<title>` text (stripped) when a title
element is present, else the literal placeholder `Article` — with no
`<h1>` step in between. -/
theorem claim_C9_amended : ∀ (doc : List Node) (t ti : String),
    extract_article_content_and_title (some doc) = some (t, ti) →
    ti = titleRuleNoH1 doc := by
  intro doc t ti h
  rw [extract_article_content_and_title] at h
  split at h
  · exact absurd h (by simp)
  · simp only [Option.some.injEq, Prod.mk.injEq] at h
    rw [← h.2]
    rfl

/-- Claim C9's amended rule exercised: a padded `<title>` is stripped and
returned. -/
theorem claim_C9_witness :
    extract_article_content_and_title (some c9TitleDoc) =
      some (repSent "w" 55, "My Title")
    ∧ "My Title" = titleRuleNoH1 c9TitleDoc := by
  have h : extract_article_content_and_title (some c9TitleDoc) =
      some (repSent "w" 55, "My Title") := by decide
  exact ⟨h, claim_C9_amended c9TitleDoc (repSent "w" 55) "My Title" h⟩

/-- Claim C10: extraction fails exactly below the 50-word floor on the
cleaned text, and otherwise returns that text truncated to at most 5000
characters (together with the title); a failed fetch extracts nothing. -/
theorem claim_C10 : ∀ (doc : List Node),
    (pyWordCount (extractCleanedText doc) < 50 →
      extract_article_content_and_title (some doc) = none)
    ∧ (50 ≤ pyWordCount (extractCleanedText doc) →
      extract_article_content_and_title (some doc) =
        some (strTake (extractCleanedText doc) 5000, extractTitle doc))
    ∧ (∀ (t ti : String),
        extract_article_content_and_title (some doc) = some (t, ti) →
        t.length ≤ 5000 ∧ t = strTake (extractCleanedText doc) 5000)
    ∧ extract_article_content_and_title none = none := by
  intro doc
  refine ⟨fun h => ?_, fun h => ?_, fun t ti h => ?_, rfl⟩
  · rw [extract_article_content_and_title, if_pos h]
  · rw [extract_article_content_and_title, if_neg (Nat.not_lt.mpr h)]
  · rw [extract_article_content_and_title] at h
    split at h
    · exact absurd h (by simp)
    · simp only [Option.some.injEq, Prod.mk.injEq] at h
      refine ⟨?_, h.1.symm⟩
      rw [← h.1]
      show (strTake (extractCleanedText doc) 5000).data.length ≤ 5000
      rw [strTake]
      exact List.length_take_le 5000 (extractCleanedText doc).toList

/-- Claim C10 exercised: a five-word page is rejected, a sixty-word page
is returned truncated (here unchanged) with its title. -/
theorem claim_C10_witness :
    extract_article_content_and_title (some c10SmallDoc) = none
    ∧ extract_article_content_and_title (some c10BigDoc) =
        some (strTake (extractCleanedText c10BigDoc) 5000, extractTitle c10BigDoc) :=
  ⟨(claim_C10 c10SmallDoc).1 (by decide), (claim_C10 c10BigDoc).2.1 (by decide)⟩
